import Mathlib

/-!
Shallow embedding of the `transit-router` repository for verification.

Part 1 embeds the CSV loader module (`src/unnamed/part_000`): a typed CSV
loader driven by a column specification.  JavaScript values stored into the
output records are modelled by `JSValue`; JavaScript numbers produced by the
`Number(...)` conversion are modelled by `JSNum` (rationals plus `nan` and the
two infinities).  Promise resolution/rejection is modelled by
`Except String`.  Optional JavaScript fields that the code only tests for
truthiness (`optional`, `isOptional`) are modelled as `Bool` with `false`
standing for an absent field; the string-valued `destination` keeps its
optionality as `Option String` because the code distinguishes its value.

Part 2 embeds the `OverlayMap` component (`src/client/src/overlaymap/map.tsx`):
its data-change detection, its `bounds_changed` and `click` listeners, and the
fault sink installed at construction.
-/

set_option autoImplicit false

/-- Column value types of the CSV spec (`enum ColumnType`). -/
inductive ColumnType where
  | STRING
  | NUMERIC
  | BOOLEAN
deriving DecidableEq, Repr

/-- A column of a CSV spec (`interface Column`). -/
structure Column where
  name : String
  type : ColumnType
  optional : Bool := false
  destination : Option String := none
deriving DecidableEq, Repr

/-- A CSV spec (`interface CSVSpec`). -/
structure CSVSpec where
  columns : List Column
  isOptional : Bool := false
deriving DecidableEq, Repr

/-- A column together with its position in the CSV header
(`interface IndexedColumn`). -/
structure IndexedColumn extends Column where
  number : Nat
deriving DecidableEq, Repr

/-- The output field name a column resolves to: the JavaScript expression
`c.destination || c.name`, where an absent or empty `destination` (both falsy)
falls back to the name. -/
def resolvedField (c : Column) : String :=
  match c.destination with
  | some d => if d = "" then c.name else d
  | none => c.name

/-- Modelled from the spec: `utils.findDuplicate` lives in the repository's
`utils` module, which is not under `src/`.  Its name, and its use in
`findSpecError` (the result is interpolated into the error message), determine
it as: return a value that occurs more than once in the list, or null.  We
model it as returning the first element equal to an earlier one. -/
def findDuplicate (l : List String) : Option String :=
  go [] l
where
  go : List String → List String → Option String
  | _, [] => none
  | seen, x :: xs => if x ∈ seen then some x else go (x :: seen) xs

/-- `findSpecError` from the source: report a duplicate output field name.
The JavaScript guard `if (dupe)` is a truthiness test, so a duplicated
empty-string field is not reported. -/
def findSpecError (spec : CSVSpec) : Option String :=
  match findDuplicate (spec.columns.map resolvedField) with
  | some dupe =>
      if dupe = "" then none
      else some ("Duplicate field in CSV spec: " ++ dupe)
  | none => none

/-- `header.indexOf(name)`: position of the first occurrence, `none` for the
JavaScript result `-1`. -/
def headerIndexOf (h : List String) (a : String) : Option Nat :=
  match h with
  | [] => none
  | s :: rest => if s = a then some 0 else (headerIndexOf rest a).map (· + 1)

/-- `extractColumnMapping` from the source.  The header is `rows[0]` of the
parsed file, hence possibly `undefined` (`none`) for an empty file; the first
`header.indexOf` call on an undefined header is a thrown `TypeError`.
A required column absent from the header is a thrown error; optional absent
columns are skipped; found columns keep spec order, tagged with their header
position (`indexOf`, i.e. the first occurrence). -/
def extractColumnMapping (columns : List Column) (header : Option (List String))
    (filename : String) : Except String (List IndexedColumn) :=
  match columns with
  | [] => Except.ok []
  | c :: rest =>
    match header with
    | none => Except.error "TypeError: header is undefined"
    | some h =>
      match headerIndexOf h c.name with
      | none =>
          if c.optional then extractColumnMapping rest header filename
          else Except.error ("Required column " ++ c.name ++ " missing from "
            ++ String.intercalate "," h ++ " in " ++ filename ++ ".")
      | some n =>
          match extractColumnMapping rest header filename with
          | Except.error e => Except.error e
          | Except.ok out => Except.ok ({ c with number := n } :: out)

/-- `addDestinations` from the source: fill in the `destination` field where
it is absent (`column.destination || column.name`). -/
def addDestinations (columns : List IndexedColumn) : List IndexedColumn :=
  columns.map (fun c => { c with destination := some (resolvedField c.toColumn) })

/-- A JavaScript number as produced by `Number(...)`. -/
inductive JSNum where
  | nan
  | inf
  | negInf
  | rat (q : ℚ)
deriving DecidableEq, Repr

/-- A JavaScript value stored into an output record field. -/
inductive JSValue where
  | str (s : String)
  | num (n : JSNum)
  | bool (b : Bool)
  | undef
deriving DecidableEq, Repr

/-- Value of a list of decimal digit characters. -/
def digitsToNat (cs : List Char) : Nat :=
  cs.foldl (fun n c => n * 10 + (c.toNat - 48)) 0

/-- Mantissa of a JavaScript decimal literal: digits, optionally with a dot
and fractional digits; at least one digit overall. -/
def parseMantissa (cs : List Char) : Option ℚ :=
  let ip := cs.takeWhile Char.isDigit
  match cs.dropWhile Char.isDigit with
  | [] => if ip.isEmpty then none else some (digitsToNat ip : ℚ)
  | '.' :: rest =>
      let fp := rest.takeWhile Char.isDigit
      if !(rest.dropWhile Char.isDigit).isEmpty then none
      else if ip.isEmpty && fp.isEmpty then none
      else some ((digitsToNat ip : ℚ) + (digitsToNat fp : ℚ) / (10 : ℚ) ^ fp.length)
  | _ => none

/-- Exponent part of a JavaScript decimal literal: optional sign then at
least one digit. -/
def parseExponent (cs : List Char) : Option ℤ :=
  let (sgn, rest) :=
    match cs with
    | '+' :: r => ((1 : ℤ), r)
    | '-' :: r => ((-1 : ℤ), r)
    | r => ((1 : ℤ), r)
  let ds := rest.takeWhile Char.isDigit
  if ds.isEmpty || !(rest.dropWhile Char.isDigit).isEmpty then none
  else some (sgn * (digitsToNat ds : ℤ))

/-- Split a character list at the first `e`/`E`, if any. -/
def splitAtExp (cs : List Char) : List Char × Option (List Char) :=
  match cs.findIdx? (fun c => c = 'e' || c = 'E') with
  | none => (cs, none)
  | some i => (cs.take i, some (cs.drop (i + 1)))

/-- A JavaScript decimal literal with optional exponent. -/
def parseDecimal (cs : List Char) : Option ℚ :=
  let (m, e) := splitAtExp cs
  match parseMantissa m, e with
  | some q, none => some q
  | some q, some ecs =>
      (parseExponent ecs).map (fun x => q * (10 : ℚ) ^ x)
  | none, _ => none

/-- Value of a hexadecimal-alphabet digit character. -/
def digitVal (c : Char) : Option Nat :=
  if c.isDigit then some (c.toNat - 48)
  else if 'a' ≤ c && c ≤ 'f' then some (c.toNat - 87)
  else if 'A' ≤ c && c ≤ 'F' then some (c.toNat - 55)
  else none

/-- Nonempty digit string in the given radix. -/
def parseRadixNat (radix : Nat) (cs : List Char) : Option Nat :=
  match cs with
  | [] => none
  | _ => cs.foldlM (fun n c =>
      match digitVal c with
      | some v => if v < radix then some (n * radix + v) else none
      | none => none) 0

/-- Leading and trailing whitespace removal, as `Number(...)` performs on its
string argument. -/
def jsTrim (cs : List Char) : List Char :=
  ((cs.dropWhile Char.isWhitespace).reverse.dropWhile Char.isWhitespace).reverse

/-- The JavaScript `Number(string)` conversion (the fragment it defines on
trimmed input: empty string is `0`; `0x`/`0o`/`0b` radix literals; optionally
signed `Infinity`; optionally signed decimal literals with optional exponent;
everything else is `NaN`). -/
def jsStringToNumber (s : String) : JSNum :=
  match jsTrim s.toList with
  | [] => JSNum.rat 0
  | '0' :: 'x' :: rest => radixNum 16 rest
  | '0' :: 'X' :: rest => radixNum 16 rest
  | '0' :: 'o' :: rest => radixNum 8 rest
  | '0' :: 'O' :: rest => radixNum 8 rest
  | '0' :: 'b' :: rest => radixNum 2 rest
  | '0' :: 'B' :: rest => radixNum 2 rest
  | cs =>
    let (neg, rest) :=
      match cs with
      | '+' :: r => (false, r)
      | '-' :: r => (true, r)
      | r => (false, r)
    if rest = "Infinity".toList then
      if neg then JSNum.negInf else JSNum.inf
    else
      match parseDecimal rest with
      | some q => JSNum.rat (if neg then -q else q)
      | none => JSNum.nan
where
  radixNum (radix : Nat) (cs : List Char) : JSNum :=
    match parseRadixNat radix cs with
    | some n => JSNum.rat n
    | none => JSNum.nan

/-- `Number(cell)` where the cell may be `undefined` (row shorter than the
column position): `Number(undefined)` is `NaN`. -/
def jsToNumber (cell : Option String) : JSNum :=
  match cell with
  | none => JSNum.nan
  | some s => jsStringToNumber s

/-- Conversion of one raw cell according to the column type, following the
loop body in `loadCSV`: strings are stored as-is (an out-of-range cell is
`undefined`), numeric cells go through `Number`, boolean cells compare the
raw cell against the literal string `"1"` with strict equality. -/
def convertCell (t : ColumnType) (cell : Option String) : JSValue :=
  match t with
  | ColumnType.STRING =>
      match cell with
      | some s => JSValue.str s
      | none => JSValue.undef
  | ColumnType.NUMERIC => JSValue.num (jsToNumber cell)
  | ColumnType.BOOLEAN => JSValue.bool (cell == some "1")

/-- The field key a mapped column writes to: `o[column.destination]`, with
`destination` always set after `addDestinations`. -/
def destKey (c : IndexedColumn) : String :=
  c.destination.getD c.name

/-- One output record, built from one data row: the `loadCSV` loop assigns
`o[column.destination]` in spec-column order.  We record the assignments in
order; `getField` reads with last-write-wins, matching object assignment. -/
def mkRecord (columns : List IndexedColumn) (row : List String) :
    List (String × JSValue) :=
  columns.map (fun c => (destKey c, convertCell c.type (row.get? c.number)))

/-- Read a record field: the value of the last assignment to the key, if any
(JavaScript object semantics — a later assignment to the same key wins). -/
def getField (r : List (String × JSValue)) (k : String) : Option JSValue :=
  match r with
  | [] => none
  | (k', v) :: rest =>
    match getField rest k with
    | some w => some w
    | none => if k' = k then some v else none

/-- `loadCSV` from the source.  `fileExists` models `utils.fileExists`
(`utils` is not under `src/`); `content` models the parsed rows of the file.
Modelled from the spec for the missing `./csv-parser` module: `parseCSV`
delivers all parsed rows to the callback (the first delivered row being the
header), and an exception thrown by the callback rejects the returned
promise — the spec's fail-fast ingestion policy. -/
def loadCSV (filename : String) (spec : CSVSpec) (fileExists : Bool)
    (content : List (List String)) :
    Except String (List (List (String × JSValue))) :=
  match findSpecError spec with
  | some error => Except.error error
  | none =>
    if fileExists = false then
      if spec.isOptional then Except.ok []
      else Except.error ("Unable to load " ++ filename ++ ": file does not exist.")
    else
      match extractColumnMapping spec.columns content.head? filename with
      | Except.error e => Except.error e
      | Except.ok icols =>
          Except.ok ((content.drop 1).map (mkRecord (addDestinations icols)))

/-!
Part 2: the `OverlayMap` component.  Feature data elements, bounding boxes,
pixel points, features and effect values are abstract types; the `underscore`
helpers `utils.zip` and `utils.shallowEqual` are from the repository's missing
`utils` module, so the shallow-equality test is carried as an explicit
function argument `se` (the real `shallowEqual` is a symmetric comparison of
own properties; theorems that need symmetry assume it) and `utils.zip` of two
equal-length arrays is `List.zip`.
-/

/-- `didDataChange` from the source: true when the two arrays differ in
length, or when some pair of corresponding elements fails the shallow
comparison.  The source loops with early return; this is `List.any` over the
zipped pairs. -/
def didDataChange {α : Type} (se : α → α → Bool) (prevData data : List α) : Bool :=
  if prevData.length ≠ data.length then true
  else (prevData.zip data).any (fun p => !se p.1 p.2)

/-- The data branch of `componentDidUpdate`: the overlay's `updateData` is
called exactly when `didDataChange(this.props.data, prevProps.data)` — note
the source passes the current data as the first argument. -/
def componentDidUpdateCallsUpdateData {α : Type} (se : α → α → Bool)
    (propsData prevPropsData : List α) : Bool :=
  didDataChange se propsData prevPropsData

/-- Observable actions of the component's listeners, in execution order. -/
inductive MapAction (B : Type) where
  | draw
  | reportBounds (box : B)
deriving DecidableEq, Repr

/-- The `bounds_changed` listener body: call `overlay.draw()`, then compute
the new box from the map and report it through `onBoundsChanged` when that
prop is present. -/
def boundsChangedListener {B : Type} (hasOnBoundsChanged : Bool) (box : B) :
    List (MapAction B) :=
  [MapAction.draw] ++ (if hasOnBoundsChanged then [MapAction.reportBounds box] else [])

/-- Number of `draw` actions in a trace. -/
def countDraws {B : Type} (l : List (MapAction B)) : Nat :=
  (l.filter (fun a => match a with | MapAction.draw => true | _ => false)).length

/-- Consecutive `bounds_changed` events are processed one after the other,
each running the listener to completion. -/
def processBoundsEvents {B : Type} (hasOnBoundsChanged : Bool) (boxes : List B) :
    List (MapAction B) :=
  (boxes.map (boundsChangedListener hasOnBoundsChanged)).flatten

/-- The arguments passed to `onClick` after the hit test:
`layerFeature && layerFeature[0]` and `layerFeature && layerFeature[1]` —
`null` propagates when the hit test missed, and the array components pass
through unchanged (a layer index of `0` is passed as `0`, since the truthiness
test is on the array, not on the element). -/
def onClickArgs {F : Type} (hit : Option (Nat × F)) : Option Nat × Option F :=
  (hit.map Prod.fst, hit.map Prod.snd)

/-- The `click` listener body: when an `onClick` prop is present, resolve the
click point through `overlay.hitTest` and invoke `onClick` with the resolved
arguments; otherwise do nothing (`none`: no invocation). -/
def clickListener {P F : Type} (hasOnClick : Bool) (hitTest : P → Option (Nat × F))
    (p : P) : Option (Option Nat × Option F) :=
  if hasOnClick then some (onClickArgs (hitTest p)) else none

/-- The canvas overlay as seen from this component: it holds the fault sink
it was constructed with (`new CanvasOverlay(error => this.props.onError(error))`),
and reporting a fault invokes that sink. -/
structure CanvasOverlayModel (E Eff : Type) where
  onFault : E → Eff

/-- The overlay constructed by the `OverlayMap` constructor: its fault sink
forwards every fault to the `onError` prop. -/
def overlayMapConstruct {E Eff : Type} (onError : E → Eff) : CanvasOverlayModel E Eff :=
  { onFault := fun e => onError e }

/-- An overlay reporting a fault invokes the sink it was constructed with. -/
def reportFault {E Eff : Type} (o : CanvasOverlayModel E Eff) (e : E) : Eff :=
  o.onFault e

/-- The fault sinks installed by the constructor: one per overlay it
constructs, and it constructs exactly one overlay. -/
def installedFaultSinks {E Eff : Type} (onError : E → Eff) : List (E → Eff) :=
  [(overlayMapConstruct onError).onFault]

/-! Concrete fixtures used to instantiate the theorems below on closed inputs. -/

/-- A required string column, as in a GTFS stops file. -/
def stopIdColumn : Column :=
  { name := "stop_id", type := ColumnType.STRING }

/-- A one-column spec with a required column. -/
def specStops : CSVSpec :=
  { columns := [stopIdColumn] }

/-- The same spec with the file marked optional. -/
def specStopsOptional : CSVSpec :=
  { columns := [stopIdColumn], isOptional := true }

/-- A boolean column. -/
def wheelchairColumn : Column :=
  { name := "wheelchair", type := ColumnType.BOOLEAN }

/-- A one-boolean-column spec. -/
def specTrips : CSVSpec :=
  { columns := [wheelchairColumn] }

/-- The boolean column found at header position 0. -/
def wheelchairIndexed : IndexedColumn :=
  { toColumn := wheelchairColumn, number := 0 }

/-- The boolean column after `addDestinations`. -/
def wheelchairDest : IndexedColumn :=
  { name := "wheelchair", type := ColumnType.BOOLEAN, optional := false,
    destination := some "wheelchair", number := 0 }

/-- A numeric column. -/
def latColumn : Column :=
  { name := "lat", type := ColumnType.NUMERIC }

/-- A one-numeric-column spec. -/
def specShapes : CSVSpec :=
  { columns := [latColumn] }

/-- The numeric column found at header position 0. -/
def latIndexed : IndexedColumn :=
  { toColumn := latColumn, number := 0 }

/-- The numeric column after `addDestinations`. -/
def latDest : IndexedColumn :=
  { name := "lat", type := ColumnType.NUMERIC, optional := false,
    destination := some "lat", number := 0 }

/-- A spec whose two columns both resolve to the empty output field name. -/
def specEmptyDup : CSVSpec :=
  { columns := [{ name := "", type := ColumnType.STRING },
                { name := "", type := ColumnType.STRING }],
    isOptional := true }

/-- A spec whose two columns resolve to the same nonempty output field name
(the second through its `destination`). -/
def specRouteDup : CSVSpec :=
  { columns := [{ name := "route_id", type := ColumnType.STRING },
                { name := "trip_id", type := ColumnType.STRING,
                  destination := some "route_id" }] }

/-- A concrete shallow-equality test on numbers, standing in for
`utils.shallowEqual` in closed instances. -/
def natShallowEq : Nat → Nat → Bool :=
  fun a b => decide (a = b)

/-- A concrete hit-test function: one feature at pixel 0 in layer 0. -/
def centroidHitTest : Nat → Option (Nat × String) :=
  fun pt => if pt = 0 then some (0, "triangleA") else none

/-! Helper lemmas about the CSV loader. -/

lemma loadCSV_spec_error {filename : String} {spec : CSVSpec} {fe : Bool}
    {content : List (List String)} {err : String}
    (hspec : findSpecError spec = some err) :
    loadCSV filename spec fe content = Except.error err := by
  unfold loadCSV
  rw [hspec]

lemma loadCSV_no_file {filename : String} {spec : CSVSpec}
    {content : List (List String)} (hspec : findSpecError spec = none) :
    loadCSV filename spec false content
      = if spec.isOptional then Except.ok []
        else Except.error ("Unable to load " ++ filename ++ ": file does not exist.") := by
  unfold loadCSV
  rw [hspec]
  rfl

lemma loadCSV_extract_error {filename : String} {spec : CSVSpec}
    {content : List (List String)} {e : String}
    (hspec : findSpecError spec = none)
    (hex : extractColumnMapping spec.columns content.head? filename = Except.error e) :
    loadCSV filename spec true content = Except.error e := by
  unfold loadCSV
  rw [hspec, hex]
  rfl

lemma headerIndexOf_eq_none_of_not_mem {h : List String} {a : String}
    (ha : a ∉ h) : headerIndexOf h a = none := by
  induction h with
  | nil => rfl
  | cons s rest ih =>
    simp only [List.mem_cons, not_or] at ha
    simp [headerIndexOf, Ne.symm ha.1, ih ha.2]

lemma mem_of_headerIndexOf_eq_some {h : List String} {a : String} {n : Nat}
    (hn : headerIndexOf h a = some n) : a ∈ h := by
  induction h generalizing n with
  | nil => simp [headerIndexOf] at hn
  | cons s rest ih =>
    by_cases hs : s = a
    · simp [hs]
    · simp only [headerIndexOf, if_neg hs, Option.map_eq_some'] at hn
      obtain ⟨m, hm, -⟩ := hn
      exact List.mem_cons_of_mem _ (ih hm)

lemma extractColumnMapping_error_of_missing {columns : List Column}
    {h : List String} {filename : String} {c : Column}
    (hc : c ∈ columns) (hopt : c.optional = false) (hmiss : c.name ∉ h) :
    ∃ e, extractColumnMapping columns (some h) filename = Except.error e := by
  induction columns with
  | nil => cases hc
  | cons d rest ih =>
    rcases List.mem_cons.mp hc with hcd | hcr
    · subst hcd
      refine ⟨"Required column " ++ c.name ++ " missing from "
        ++ String.intercalate "," h ++ " in " ++ filename ++ ".", ?_⟩
      simp [extractColumnMapping, headerIndexOf_eq_none_of_not_mem hmiss, hopt]
    · obtain ⟨e, he⟩ := ih hcr
      cases hidx : headerIndexOf h d.name with
      | none =>
        by_cases hd : d.optional
        · exact ⟨e, by simp [extractColumnMapping, hidx, hd, he]⟩
        · refine ⟨"Required column " ++ d.name ++ " missing from "
            ++ String.intercalate "," h ++ " in " ++ filename ++ ".", ?_⟩
          simp [extractColumnMapping, hidx, hd]
      | some n =>
        exact ⟨e, by simp [extractColumnMapping, hidx, he]⟩

lemma toColumn_mem_of_extract_ok {columns : List Column}
    {header : Option (List String)} {filename : String}
    {icols : List IndexedColumn}
    (hex : extractColumnMapping columns header filename = Except.ok icols) :
    ∀ ic ∈ icols, ic.toColumn ∈ columns := by
  induction columns generalizing icols with
  | nil =>
    simp only [extractColumnMapping, Except.ok.injEq] at hex
    subst hex
    intro ic hic
    cases hic
  | cons d rest ih =>
    intro ic hic
    cases header with
    | none => simp [extractColumnMapping] at hex
    | some h =>
      cases hidx : headerIndexOf h d.name with
      | none =>
        by_cases hd : d.optional
        · simp only [extractColumnMapping, hidx, hd, if_true] at hex
          exact List.mem_cons_of_mem _ (ih hex ic hic)
        · simp [extractColumnMapping, hidx, hd] at hex
      | some n =>
        simp only [extractColumnMapping, hidx] at hex
        cases hrest : extractColumnMapping rest (some h) filename with
        | error e => rw [hrest] at hex; cases hex
        | ok out =>
          rw [hrest] at hex
          simp only [Except.ok.injEq] at hex
          subst hex
          rcases List.mem_cons.mp hic with hic1 | hic2
          · subst hic1
            exact List.mem_cons_self _ _
          · exact List.mem_cons_of_mem _ (ih hrest ic hic2)

lemma mkRecord_keys (cols : List IndexedColumn) (row : List String) :
    (mkRecord cols row).map Prod.fst = cols.map destKey := by
  simp [mkRecord]

lemma mkRecord_cons (d : IndexedColumn) (rest : List IndexedColumn) (row : List String) :
    mkRecord (d :: rest) row
      = (destKey d, convertCell d.type (row.get? d.number)) :: mkRecord rest row := rfl

lemma getField_cons (k' k : String) (v : JSValue) (r : List (String × JSValue)) :
    getField ((k', v) :: r) k
      = match getField r k with
        | some w => some w
        | none => if k' = k then some v else none := rfl

lemma getField_eq_none_of_not_mem_keys {r : List (String × JSValue)} {k : String}
    (hk : k ∉ r.map Prod.fst) : getField r k = none := by
  induction r with
  | nil => rfl
  | cons p rest ih =>
    obtain ⟨k', v⟩ := p
    simp only [List.map_cons, List.mem_cons, not_or] at hk
    simp [getField, ih hk.2, Ne.symm hk.1]

lemma getField_mkRecord {cols : List IndexedColumn} {row : List String}
    {c : IndexedColumn} (hc : c ∈ cols) (hnodup : (cols.map destKey).Nodup) :
    getField (mkRecord cols row) (destKey c)
      = some (convertCell c.type (row.get? c.number)) := by
  induction cols with
  | nil => cases hc
  | cons d rest ih =>
    simp only [List.map_cons, List.nodup_cons] at hnodup
    rcases List.mem_cons.mp hc with hcd | hcr
    · subst hcd
      have hnone : getField (mkRecord rest row) (destKey c) = none := by
        apply getField_eq_none_of_not_mem_keys
        rw [mkRecord_keys]
        exact hnodup.1
      rw [mkRecord_cons, getField_cons, hnone]
      simp
    · have hrec := ih hcr hnodup.2
      rw [mkRecord_cons, getField_cons, hrec]

lemma findDuplicate_go_eq_none {l seen : List String}
    (h : findDuplicate.go seen l = none) : l.Nodup ∧ ∀ x ∈ l, x ∉ seen := by
  induction l generalizing seen with
  | nil => exact ⟨List.nodup_nil, by simp⟩
  | cons x xs ih =>
    by_cases hx : x ∈ seen
    · simp [findDuplicate.go, hx] at h
    · rw [findDuplicate.go, if_neg hx] at h
      obtain ⟨hnd, hsub⟩ := ih h
      refine ⟨List.nodup_cons.mpr ⟨?_, hnd⟩, ?_⟩
      · intro hmem
        exact (hsub x hmem) (List.mem_cons_self _ _)
      · intro y hy
        rcases List.mem_cons.mp hy with hy1 | hy2
        · subst hy1; exact hx
        · intro hsy
          exact (hsub y hy2) (List.mem_cons_of_mem _ hsy)

lemma mem_of_findDuplicate_go_eq_some {l seen : List String} {d : String}
    (h : findDuplicate.go seen l = some d) : d ∈ l := by
  induction l generalizing seen with
  | nil => simp [findDuplicate.go] at h
  | cons x xs ih =>
    by_cases hx : x ∈ seen
    · rw [findDuplicate.go, if_pos hx] at h
      injection h with h
      subst h
      exact List.mem_cons_self _ _
    · rw [findDuplicate.go, if_neg hx] at h
      exact List.mem_cons_of_mem _ (ih h)

lemma exists_findDuplicate_of_not_nodup {l : List String} (h : ¬ l.Nodup) :
    ∃ d, findDuplicate l = some d ∧ d ∈ l := by
  cases hfd : findDuplicate l with
  | none => exact absurd (findDuplicate_go_eq_none hfd).1 h
  | some d => exact ⟨d, rfl, mem_of_findDuplicate_go_eq_some hfd⟩

lemma loadCSV_ok_of_extract_ok {filename : String} {spec : CSVSpec}
    {content : List (List String)} {icols : List IndexedColumn}
    (hspec : findSpecError spec = none)
    (hex : extractColumnMapping spec.columns content.head? filename = Except.ok icols) :
    loadCSV filename spec true content
      = Except.ok ((content.drop 1).map (mkRecord (addDestinations icols))) := by
  unfold loadCSV
  rw [hspec, hex]
  rfl

lemma countDraws_append {B : Type} (l1 l2 : List (MapAction B)) :
    countDraws (l1 ++ l2) = countDraws l1 + countDraws l2 := by
  simp [countDraws, List.filter_append]

/-- Claim C1: for every CSV spec and existing input file, if a column marked
non-optional in the spec does not appear in the file's header row, then
`loadCSV` fails the entire load (the result is an error, so no records are
produced), regardless of how many rows could otherwise be parsed. -/
theorem loadCSV_rejects_missing_required_column
    (filename : String) (spec : CSVSpec) (content : List (List String))
    (hd : List String) (c : Column)
    (hhead : content.head? = some hd)
    (hc : c ∈ spec.columns) (hopt : c.optional = false) (hmiss : c.name ∉ hd) :
    ∃ e, loadCSV filename spec true content = Except.error e := by
  cases hspec : findSpecError spec with
  | some err => exact ⟨err, loadCSV_spec_error hspec⟩
  | none =>
    obtain ⟨e, he⟩ := extractColumnMapping_error_of_missing hc hopt hmiss
    refine ⟨e, loadCSV_extract_error hspec ?_⟩
    rw [hhead]
    exact he

/-- Witness for C1: a file whose header lacks the required `stop_id` column
fails to load even though its data rows are parseable. -/
theorem loadCSV_rejects_missing_required_column_witness :
    (loadCSV "stops.txt" specStops true [["stop_name"], ["x"]]).isOk = false := by
  obtain ⟨e, he⟩ := loadCSV_rejects_missing_required_column "stops.txt" specStops
    [["stop_name"], ["x"]] ["stop_name"] stopIdColumn rfl (by decide) rfl (by decide)
  rw [he]
  rfl

/-- Claim C2: for every boolean column of the spec (as mapped into the file)
and every data row of a successful load, the field stored in the output
record is `true` exactly when the raw cell is the literal string `"1"`; any
other cell (including `"true"`, `"0"`, the empty string, or a missing cell)
yields `false`. -/
theorem loadCSV_boolean_field_iff_literal_one
    (filename : String) (spec : CSVSpec) (content : List (List String))
    (icols : List IndexedColumn) (row : List String) (c : IndexedColumn)
    (hspec : findSpecError spec = none)
    (hex : extractColumnMapping spec.columns content.head? filename = Except.ok icols)
    (hc : c ∈ addDestinations icols) (htype : c.type = ColumnType.BOOLEAN)
    (hnodup : ((addDestinations icols).map destKey).Nodup)
    (hrow : row ∈ content.drop 1) :
    ∃ records, loadCSV filename spec true content = Except.ok records ∧
      mkRecord (addDestinations icols) row ∈ records ∧
      getField (mkRecord (addDestinations icols) row) (destKey c)
        = some (JSValue.bool (row.get? c.number == some "1")) ∧
      (getField (mkRecord (addDestinations icols) row) (destKey c)
        = some (JSValue.bool true) ↔ row.get? c.number = some "1") := by
  refine ⟨_, loadCSV_ok_of_extract_ok hspec hex, List.mem_map_of_mem _ hrow, ?_, ?_⟩
  · rw [getField_mkRecord hc hnodup, htype]
    rfl
  · rw [getField_mkRecord hc hnodup, htype]
    simp [convertCell]

/-- Witness for C2: a `"1"` cell stores `true`; a `"true"` cell stores
`false`. -/
theorem loadCSV_boolean_field_iff_literal_one_witness :
    getField (mkRecord (addDestinations [wheelchairIndexed]) ["1"]) (destKey wheelchairDest)
      = some (JSValue.bool true) ∧
    getField (mkRecord (addDestinations [wheelchairIndexed]) ["true"]) (destKey wheelchairDest)
      = some (JSValue.bool false) := by
  constructor
  · obtain ⟨records, -, -, -, hiff⟩ := loadCSV_boolean_field_iff_literal_one
      "trips.txt" specTrips [["wheelchair"], ["1"]] [wheelchairIndexed] ["1"]
      wheelchairDest rfl rfl (by decide) rfl (by decide) (by decide)
    exact hiff.mpr rfl
  · obtain ⟨records, -, -, hval, -⟩ := loadCSV_boolean_field_iff_literal_one
      "trips.txt" specTrips [["wheelchair"], ["true"]] [wheelchairIndexed] ["true"]
      wheelchairDest rfl rfl (by decide) rfl (by decide) (by decide)
    rw [hval]
    rfl

/-- Claim C3: with a well-formed spec and a missing file, `loadCSV` resolves
to the empty list when the spec marks the file optional and rejects
otherwise; the result does not depend on the file content, so nothing is
parsed. -/
theorem loadCSV_missing_file
    (filename : String) (spec : CSVSpec) (content : List (List String))
    (hspec : findSpecError spec = none) :
    loadCSV filename spec false content
      = if spec.isOptional then Except.ok []
        else Except.error ("Unable to load " ++ filename ++ ": file does not exist.") :=
  loadCSV_no_file hspec

/-- Witness for C3: the optional spec resolves to `[]`, the required spec
rejects, on the same missing file. -/
theorem loadCSV_missing_file_witness :
    loadCSV "stops.txt" specStopsOptional false [["junk"]] = Except.ok [] ∧
    loadCSV "stops.txt" specStops false [["junk"]]
      = Except.error "Unable to load stops.txt: file does not exist." := by
  constructor
  · rw [loadCSV_missing_file "stops.txt" specStopsOptional [["junk"]] rfl]
    rfl
  · rw [loadCSV_missing_file "stops.txt" specStops [["junk"]] rfl]
    rfl

/-- Claim C4: every field of every record of a successful load originates
from a spec column, under that column's resolved output field name; header
columns absent from the spec contribute no field. -/
theorem loadCSV_record_fields_from_spec
    (filename : String) (spec : CSVSpec) (fe : Bool)
    (content : List (List String)) (records : List (List (String × JSValue)))
    (hload : loadCSV filename spec fe content = Except.ok records) :
    (∀ r ∈ records, ∀ kv ∈ r, ∃ c ∈ spec.columns, kv.1 = resolvedField c) ∧
    records.all
      (fun r => r.all (fun kv => spec.columns.any (fun c => kv.1 == resolvedField c)))
      = true := by
  have main : ∀ r ∈ records, ∀ kv ∈ r, ∃ c ∈ spec.columns, kv.1 = resolvedField c := by
    cases hspec : findSpecError spec with
    | some err =>
      rw [loadCSV_spec_error hspec] at hload
      cases hload
    | none =>
      cases fe with
      | false =>
        rw [loadCSV_no_file hspec] at hload
        by_cases hopt : spec.isOptional
        · rw [if_pos hopt] at hload
          injection hload with hload
          subst hload
          intro r hr
          cases hr
        · rw [if_neg hopt] at hload
          cases hload
      | true =>
        cases hex : extractColumnMapping spec.columns content.head? filename with
        | error e =>
          rw [loadCSV_extract_error hspec hex] at hload
          cases hload
        | ok icols =>
          rw [loadCSV_ok_of_extract_ok hspec hex] at hload
          injection hload with hload
          subst hload
          intro r hr kv hkv
          obtain ⟨row, hrow, hr2⟩ := List.mem_map.mp hr
          subst hr2
          obtain ⟨c2, hc2, hkv2⟩ := List.mem_map.mp hkv
          obtain ⟨ic, hic, hcf⟩ := List.mem_map.mp hc2
          refine ⟨ic.toColumn, toColumn_mem_of_extract_ok hex ic hic, ?_⟩
          rw [← hkv2, ← hcf]
          rfl
  refine ⟨main, ?_⟩
  rw [List.all_eq_true]
  intro r hr
  rw [List.all_eq_true]
  intro kv hkv
  obtain ⟨c, hc, hk⟩ := main r hr kv hkv
  rw [List.any_eq_true]
  exact ⟨c, hc, by simp [hk]⟩

/-- Witness for C4: a load whose header has an extra column unknown to the
spec; every stored field still comes from the spec. -/
theorem loadCSV_record_fields_from_spec_witness :
    (List.map (mkRecord (addDestinations [{ toColumn := stopIdColumn, number := 1 }]))
        (List.drop 1 [["extra_col", "stop_id"], ["v", "7"]])).all
      (fun r => r.all (fun kv => specStops.columns.any (fun c => kv.1 == resolvedField c)))
      = true :=
  (loadCSV_record_fields_from_spec "stops.txt" specStops true
    [["extra_col", "stop_id"], ["v", "7"]] _ rfl).2

/-- Counterexample to C9 as stated: both columns of `specEmptyDup` resolve to
the same output field name (the empty string), yet `loadCSV` does not reject
with a duplicate-field error: with the file absent it resolves to `[]`, and
with a file present it reads the data rows.  The `if (dupe)` truthiness guard
in `findSpecError` drops an empty-string duplicate. -/
theorem loadCSV_duplicate_empty_field_not_rejected :
    specEmptyDup.columns.map resolvedField = ["", ""] ∧
    loadCSV "trips.txt" specEmptyDup false [] = Except.ok [] ∧
    loadCSV "trips.txt" specEmptyDup true [["", "x"], ["a", "b"]]
      = Except.ok [[("", JSValue.str "a"), ("", JSValue.str "a")]] :=
  ⟨rfl, rfl, rfl⟩

/-- Claim C9 (amended): for every CSV spec in which two columns resolve to
the same output field name, and no column's resolved field name is the empty
string, `loadCSV` rejects with a duplicate-field error before checking file
existence or reading any data — the same error for every file-existence
state and every content. -/
theorem loadCSV_rejects_duplicate_field
    (filename : String) (spec : CSVSpec)
    (hdup : ¬ (spec.columns.map resolvedField).Nodup)
    (hne : "" ∉ spec.columns.map resolvedField) :
    ∃ d, d ∈ spec.columns.map resolvedField ∧ d ≠ "" ∧
      ∀ (fe : Bool) (content : List (List String)),
        loadCSV filename spec fe content
          = Except.error ("Duplicate field in CSV spec: " ++ d) := by
  obtain ⟨d, hfd, hdm⟩ := exists_findDuplicate_of_not_nodup hdup
  have hdne : d ≠ "" := fun h => hne (h ▸ hdm)
  have hse : findSpecError spec = some ("Duplicate field in CSV spec: " ++ d) := by
    unfold findSpecError
    rw [hfd]
    simp [hdne]
  exact ⟨d, hdm, hdne, fun fe content => loadCSV_spec_error hse⟩

/-- Witness for the amended C9: a spec with two columns resolving to
`route_id` rejects even on a well-formed existing file. -/
theorem loadCSV_rejects_duplicate_field_witness :
    (loadCSV "trips.txt" specRouteDup true [["route_id", "trip_id"], ["r", "t"]]).isOk
      = false := by
  obtain ⟨d, -, -, herr⟩ := loadCSV_rejects_duplicate_field "trips.txt" specRouteDup
    (by decide) (by decide)
  rw [herr true [["route_id", "trip_id"], ["r", "t"]]]
  rfl

/-- Claim C10: a numeric column's cell that is not a valid numeric string
does not fail the load: the load still succeeds and the record's field is
the `NaN` result of the `Number` conversion. -/
theorem loadCSV_numeric_invalid_cell_is_nan
    (filename : String) (spec : CSVSpec) (content : List (List String))
    (icols : List IndexedColumn) (row : List String) (c : IndexedColumn)
    (cell : String)
    (hspec : findSpecError spec = none)
    (hex : extractColumnMapping spec.columns content.head? filename = Except.ok icols)
    (hc : c ∈ addDestinations icols) (htype : c.type = ColumnType.NUMERIC)
    (hnodup : ((addDestinations icols).map destKey).Nodup)
    (hrow : row ∈ content.drop 1)
    (hcell : row.get? c.number = some cell)
    (hnan : jsStringToNumber cell = JSNum.nan) :
    ∃ records, loadCSV filename spec true content = Except.ok records ∧
      mkRecord (addDestinations icols) row ∈ records ∧
      getField (mkRecord (addDestinations icols) row) (destKey c)
        = some (JSValue.num JSNum.nan) := by
  refine ⟨_, loadCSV_ok_of_extract_ok hspec hex, List.mem_map_of_mem _ hrow, ?_⟩
  rw [getField_mkRecord hc hnodup, htype, hcell]
  simp [convertCell, jsToNumber, hnan]

/-- Witness for C10: the cell `"abc"` in a numeric column loads successfully
and stores `NaN`. -/
theorem loadCSV_numeric_invalid_cell_is_nan_witness :
    (loadCSV "shapes.txt" specShapes true [["lat"], ["abc"]]).isOk = true ∧
    getField (mkRecord (addDestinations [latIndexed]) ["abc"]) (destKey latDest)
      = some (JSValue.num JSNum.nan) := by
  obtain ⟨records, hload, -, hfield⟩ := loadCSV_numeric_invalid_cell_is_nan
    "shapes.txt" specShapes [["lat"], ["abc"]] [latIndexed] ["abc"] latDest "abc"
    rfl rfl (by decide) rfl (by decide) (by decide) rfl rfl
  constructor
  · rw [hload]
    rfl
  · exact hfield

/-- Claim C5: on a component update, `componentDidUpdate` calls the overlay's
`updateData` exactly when the data prop changed under the shallow per-element
comparison: the old and new arrays differ in length, or some pair of
corresponding elements fails the (symmetric) shallow-equality test.  The
source calls `didDataChange(this.props.data, prevProps.data)`, i.e. with the
arguments in swapped order relative to the declared parameters; symmetry of
the comparison makes the result agree with the claim. -/
theorem componentDidUpdate_calls_updateData_iff {α : Type} (se : α → α → Bool)
    (hsymm : ∀ a b, se a b = se b a) (prevData data : List α) :
    componentDidUpdateCallsUpdateData se data prevData = true ↔
      (prevData.length ≠ data.length ∨ ∃ p ∈ prevData.zip data, se p.1 p.2 = false) := by
  unfold componentDidUpdateCallsUpdateData didDataChange
  by_cases hlen : data.length = prevData.length
  · rw [if_neg (by simp [hlen]), List.any_eq_true]
    constructor
    · rintro ⟨p, hp, hsep⟩
      rw [Bool.not_eq_eq_eq_not, Bool.not_true] at hsep
      refine Or.inr ⟨(p.2, p.1), ?_, ?_⟩
      · rw [← List.zip_swap]
        exact List.mem_map.mpr ⟨p, hp, rfl⟩
      · rw [hsymm]
        exact hsep
    · rintro (hne | ⟨p, hp, hsep⟩)
      · exact absurd hlen.symm hne
      · refine ⟨(p.2, p.1), ?_, ?_⟩
        · rw [← List.zip_swap]
          exact List.mem_map.mpr ⟨p, hp, rfl⟩
        · rw [Bool.not_eq_eq_eq_not, Bool.not_true]
          rw [hsymm]
          exact hsep
  · rw [if_pos (fun h => hlen h)]
    exact iff_of_true rfl (Or.inl (fun h => hlen h.symm))

/-- Witness for C5: with equal-length data whose second elements differ, the
update is performed. -/
theorem componentDidUpdate_calls_updateData_iff_witness :
    componentDidUpdateCallsUpdateData natShallowEq [1, 3] [1, 2] = true :=
  (componentDidUpdate_calls_updateData_iff natShallowEq
      (fun a b => by simp only [natShallowEq]; exact decide_eq_decide.mpr eq_comm)
      [1, 2] [1, 3]).mpr
    (Or.inr ⟨(2, 3), by decide, by decide⟩)

/-- Claim C6: each `bounds_changed` event runs the listener to completion:
the overlay's `draw()` is invoked exactly once, synchronously, and before the
new bounds are reported through `onBoundsChanged` (which is invoked only when
the prop is present); there is no throttling or change detection, so `n`
consecutive viewport events produce exactly `n` full redraws. -/
theorem boundsChanged_draws_once_per_event {B : Type} (hasOnBoundsChanged : Bool)
    (box : B) (boxes : List B) :
    boundsChangedListener hasOnBoundsChanged box
      = MapAction.draw
        :: (if hasOnBoundsChanged then [MapAction.reportBounds box] else []) ∧
    countDraws (boundsChangedListener hasOnBoundsChanged box) = 1 ∧
    countDraws (processBoundsEvents hasOnBoundsChanged boxes) = boxes.length := by
  refine ⟨rfl, ?_, ?_⟩
  · cases hasOnBoundsChanged <;> rfl
  · induction boxes with
    | nil => rfl
    | cons b bs ih =>
      have hstep : processBoundsEvents hasOnBoundsChanged (b :: bs)
          = boundsChangedListener hasOnBoundsChanged b
            ++ processBoundsEvents hasOnBoundsChanged bs := by
        simp [processBoundsEvents]
      have h1 : countDraws (boundsChangedListener hasOnBoundsChanged b) = 1 := by
        cases hasOnBoundsChanged <;> rfl
      rw [hstep, countDraws_append, ih, h1, List.length_cons, Nat.add_comm]

/-- Claim C7: with an `onClick` handler supplied, a click is resolved through
the overlay's hit test; a hit (including one in layer 0) is reported with its
layer index and feature, and a miss is reported as `null` for both. -/
theorem clickListener_resolves_through_hitTest {P F : Type}
    (hitTest : P → Option (Nat × F)) (p : P) :
    (∀ i f, hitTest p = some (i, f)
      → clickListener true hitTest p = some (some i, some f)) ∧
    (hitTest p = none → clickListener true hitTest p = some (none, none)) := by
  constructor
  · intro i f h
    simp [clickListener, onClickArgs, h]
  · intro h
    simp [clickListener, onClickArgs, h]

/-- Witness for C7: a click at the feature's pixel reports layer 0 and the
feature; a click far away reports a double `null`. -/
theorem clickListener_resolves_through_hitTest_witness :
    clickListener true centroidHitTest 0 = some (some 0, some "triangleA") ∧
    clickListener true centroidHitTest 1000 = some (none, none) :=
  ⟨(clickListener_resolves_through_hitTest centroidHitTest 0).1 0 "triangleA" rfl,
   (clickListener_resolves_through_hitTest centroidHitTest 1000).2 rfl⟩

/-- Claim C8: the constructor installs exactly one fault sink — the one
handed to the overlay it constructs — and that sink forwards every reported
fault to the `onError` prop. -/
theorem overlayMap_single_fault_sink_forwards_onError {E Eff : Type}
    (onError : E → Eff) :
    installedFaultSinks onError = [(overlayMapConstruct onError).onFault] ∧
    (installedFaultSinks onError).length = 1 ∧
    ∀ e, reportFault (overlayMapConstruct onError) e = onError e :=
  ⟨rfl, rfl, fun _ => rfl⟩
